import Mathlib

/-!
Verification development for the file-lifecycle engine of the papyru2 note
editor (`src/file_update_handler.rs`).

Shallow embedding conventions:
* A filesystem path (`PathBuf`) is a list of components (`PathC`); `Path::join`
  with a single file name appends one component, `Path::parent` drops the last
  component (returning `none` for the empty path, as Rust does), and
  `Path::file_name` is the last component.
* The filesystem is an association list from paths to file contents
  (`FS`); only regular files are modelled, directories are implicit
  (`fs::create_dir_all` is total and has no observable effect in the model).
* `Instant` is a number of milliseconds (`Nat`); `Duration` likewise, so
  `CREATE_EVENT_MIN_INTERVAL = Duration::from_secs(1)` is `1000` and
  `Duration::as_secs` is division by `1000`.  `Instant::duration_since`
  saturates to zero exactly like truncated `Nat` subtraction, and
  `checked_duration_since` returns `none` when the argument is later.
* `chrono::DateTime<Local>` is a `Timestamp` record of calendar fields; the
  format strings `%Y%m%d%H%M%S%3f` and `%Y/%m/%d` are modelled by fixed-width
  zero-padded decimal rendering, which agrees with chrono on every timestamp
  whose year fits in four digits (`Timestamp.Valid`).
* Fallible operations return `Except String α` with the error message carried
  as a string, or a pair of the resulting filesystem and an
  `Except String Unit` when their side effects before the failure matter.
-/

/-- A filesystem path, as its list of components. -/
abbrev PathC := List String

/-- A filesystem: an association list from file paths to file contents.
Keys are kept unique by construction (`fsSet` overwrites in place). -/
abbrev FS := List (PathC × String)

/-- Content of a file in the filesystem, `none` when the path has no file. -/
def fsGet : FS → PathC → Option String
  | [], _ => none
  | e :: rest, p => if e.1 = p then some e.2 else fsGet rest p

/-- `Path::exists` restricted to regular files (all the model stores). -/
def fsContainsPath (fs : FS) (p : PathC) : Bool :=
  (fsGet fs p).isSome

/-- Create or overwrite the file at `p` with content `v`. -/
def fsSet : FS → PathC → String → FS
  | [], p, v => [(p, v)]
  | e :: rest, p, v => if e.1 = p then (p, v) :: rest else e :: fsSet rest p v

/-- Delete the file at `p` (no effect when absent). -/
def fsRemove : FS → PathC → FS
  | [], _ => []
  | e :: rest, p => if e.1 = p then fsRemove rest p else e :: fsRemove rest p

/-- `fs::rename`: move the file at `src` to `dst`, overwriting `dst`. -/
def fsRename (fs : FS) (src dst : PathC) : FS :=
  match fsGet fs src with
  | none => fs
  | some v => fsSet (fsRemove fs src) dst v

/-- `Path::parent`: `none` for the empty path, otherwise all but the last
component (the parent of a bare file name is the empty path, as in Rust). -/
def pathParent (p : PathC) : Option PathC :=
  if p = [] then none else some p.dropLast

/-- `Path::file_name`: the last component. -/
def pathFileName (p : PathC) : Option String :=
  p.getLast?

/-- `chrono::DateTime<Local>`, reduced to the calendar fields the code
formats.  Arbitrary `Nat` fields; `Timestamp.Valid` marks the range on which
the fixed-width rendering below agrees with chrono. -/
structure Timestamp where
  year : Nat
  month : Nat
  day : Nat
  hour : Nat
  minute : Nat
  second : Nat
  millisecond : Nat
deriving DecidableEq

/-- The calendar ranges chrono guarantees for a local timestamp, plus the
four-digit-year restriction under which `%Y` is exactly four digits (chrono
renders years above 9999 with more digits and a leading sign). -/
def Timestamp.Valid (t : Timestamp) : Prop :=
  t.year ≤ 9999 ∧ 1 ≤ t.month ∧ t.month ≤ 12 ∧ 1 ≤ t.day ∧ t.day ≤ 31 ∧
    t.hour ≤ 23 ∧ t.minute ≤ 59 ∧ t.second ≤ 59 ∧ t.millisecond ≤ 999

/-- The decimal digit character for `n % 10`. -/
def digitChar (n : Nat) : Char :=
  if n % 10 = 0 then '0'
  else if n % 10 = 1 then '1'
  else if n % 10 = 2 then '2'
  else if n % 10 = 3 then '3'
  else if n % 10 = 4 then '4'
  else if n % 10 = 5 then '5'
  else if n % 10 = 6 then '6'
  else if n % 10 = 7 then '7'
  else if n % 10 = 8 then '8'
  else '9'

/-- Zero-padded fixed-width decimal rendering: the `w` decimal digits of `n`
from most significant down (chrono's zero-padded numeric specifiers, faithful
whenever `n < 10 ^ w`). -/
def padDigits : Nat → Nat → List Char
  | 0, _ => []
  | w + 1, n => digitChar (n / 10 ^ w) :: padDigits w n

/-- `now.format("%Y%m%d%H%M%S%3f")`: 14 calendar digits plus 3 millisecond
digits. -/
def timestampCompact (t : Timestamp) : String :=
  String.mk (padDigits 4 t.year ++ padDigits 2 t.month ++ padDigits 2 t.day ++
    padDigits 2 t.hour ++ padDigits 2 t.minute ++ padDigits 2 t.second ++
    padDigits 3 t.millisecond)

/-- `MAX_FILE_STEM_CHARS` from the source. -/
def MAX_FILE_STEM_CHARS : Nat := 64

/-- `CREATE_EVENT_MIN_INTERVAL = Duration::from_secs(1)`, in milliseconds. -/
def CREATE_EVENT_MIN_INTERVAL : Nat := 1000

/-- `invalid_filename_char` from the source: the nine reserved characters or a
Unicode control character (`char::is_control` is the Cc category:
U+0000..U+001F and U+007F..U+009F). -/
def invalid_filename_char (ch : Char) : Bool :=
  ch == '<' || ch == '>' || ch == ':' || ch == '\"' || ch == '/' ||
    ch == '\\' || ch == '|' || ch == '?' || ch == '*' ||
    (ch.toNat < 32 || (127 ≤ ch.toNat && ch.toNat ≤ 159))

/-- `sanitize_filename_stem` from the source: substitute `_` for every invalid
character, then truncate to at most `MAX_FILE_STEM_CHARS` code points. -/
def sanitize_filename_stem (raw : String) : String :=
  String.mk ((raw.data.map fun ch =>
    if invalid_filename_char ch then '_' else ch).take MAX_FILE_STEM_CHARS)

/-- `notitle_stem` from the source:
`format!("notitle-{}", now.format("%Y%m%d%H%M%S%3f"))`. -/
def notitle_stem (now : Timestamp) : String :=
  "notitle-" ++ timestampCompact now

/-- `stem_from_singleline_value` from the source. -/
def stem_from_singleline_value (value : String) (now : Timestamp) : String :=
  if value = "" then notitle_stem now
  else
    let sanitized := sanitize_filename_stem value
    if sanitized = "" then notitle_stem now
    else sanitized

/-- `daily_directory` from the source:
`user_document_dir.join(now.format("%Y/%m/%d"))` appends the three calendar
components. -/
def daily_directory (user_document_dir : PathC) (now : Timestamp) : PathC :=
  user_document_dir ++ [String.mk (padDigits 4 now.year),
    String.mk (padDigits 2 now.month), String.mk (padDigits 2 now.day)]

/-- The candidate path tried by `resolve_unique_txt_path` for a given 1-based
`suffix`: `stem.txt` for suffix 1, `stem_{suffix}.txt` afterwards. -/
def txt_candidate (dir : PathC) (stem : String) (suffix : Nat) : PathC :=
  dir ++ [if suffix = 1 then stem ++ ".txt"
          else stem ++ "_" ++ Nat.repr suffix ++ ".txt"]

/-- A candidate is taken by the resolver loop when it equals the exclude path
or when no file exists at it (the loop tests the two conditions in that
order; this combines them). -/
def candidate_available (fs : FS) (excl : Option PathC) (cand : PathC) : Bool :=
  decide (excl = some cand) || !(fsContainsPath fs cand)

/-- The loop body of `resolve_unique_txt_path`, made total by explicit fuel.
The Rust loop increments the suffix unboundedly; on a finite filesystem
`fs.length + 1` iterations always reach an available candidate, which
`resolve_unique_txt_path` below supplies. -/
def resolve_unique_txt_path_loop (fs : FS) (dir : PathC) (stem : String)
    (excl : Option PathC) : Nat → Nat → Option PathC
  | _, 0 => none
  | suffix, fuel + 1 =>
    if excl = some (txt_candidate dir stem suffix) then
      some (txt_candidate dir stem suffix)
    else if fsContainsPath fs (txt_candidate dir stem suffix) then
      resolve_unique_txt_path_loop fs dir stem excl (suffix + 1) fuel
    else some (txt_candidate dir stem suffix)

/-- `resolve_unique_txt_path` from the source: try `stem.txt`, `stem_2.txt`,
`stem_3.txt`, … in order, treating the exclude path as available. -/
def resolve_unique_txt_path (fs : FS) (dir : PathC) (stem : String)
    (excl : Option PathC) : Option PathC :=
  resolve_unique_txt_path_loop fs dir stem excl 1 (fs.length + 1)

/-- `CreateFileRequest` from the source. -/
structure CreateFileRequest where
  user_document_dir : PathC
  singleline_value : String
  now : Timestamp
deriving DecidableEq

/-- `RenameFileRequest` from the source. -/
structure RenameFileRequest where
  current_path : PathC
  singleline_value : String
  now : Timestamp
deriving DecidableEq

/-- `EditorAutoSavePayload` from the source. -/
structure EditorAutoSavePayload where
  current_path : PathC
  editor_text : String
deriving DecidableEq

/-- `create_new_text_file` from the source: ensure the daily directory
(implicit here), resolve a unique path, create the file exclusively
(`OpenOptions::create_new`), returning the new filesystem and path. -/
def create_new_text_file (fs : FS) (request : CreateFileRequest) :
    Except String (FS × PathC) :=
  let dir := daily_directory request.user_document_dir request.now
  let stem := stem_from_singleline_value request.singleline_value request.now
  match resolve_unique_txt_path fs dir stem none with
  | none => .error "unique path resolution exhausted"
  | some path =>
    if fsContainsPath fs path then .error "file already exists"
    else .ok (fsSet fs path "", path)

/-- `rename_text_file` from the source: not-found unless the current path is a
file, resolve a unique target in the same parent excluding the current path,
no-op when the target equals the current path, otherwise rename. -/
def rename_text_file (fs : FS) (request : RenameFileRequest) :
    Except String (FS × PathC) :=
  if fsContainsPath fs request.current_path = false then
    .error "current editing file does not exist"
  else
    match pathParent request.current_path with
    | none => .error "current editing file path has no parent directory"
    | some parent =>
      let stem :=
        stem_from_singleline_value request.singleline_value request.now
      match resolve_unique_txt_path fs parent stem
          (some request.current_path) with
      | none => .error "unique path resolution exhausted"
      | some target =>
        if target = request.current_path then .ok (fs, target)
        else .ok (fsRename fs request.current_path target, target)

/-- `editor_temp_path_for_atomic_write` from the source: the sibling
`<file_name>.tmp` path, failing on a path without parent or file name. -/
def editor_temp_path_for_atomic_write (path : PathC) :
    Except String PathC :=
  match pathParent path with
  | none => .error "editor autosave path has no parent directory"
  | some parent =>
    match pathFileName path with
    | none => .error "editor autosave path has no file name"
    | some name => .ok (parent ++ [name ++ ".tmp"])

/-- `cleanup_editor_temp_file` from the source: delete the temp file,
tolerating not-found.  `remove_fn` models the fallible `fs::remove_file`
primitive (the not-found tolerance is resolved in the model by checking
existence first, since the model is sequential). -/
def cleanup_editor_temp_file (fs : FS) (p : PathC)
    (remove_fn : FS → PathC → FS × Except String Unit) :
    FS × Except String Unit :=
  if fsContainsPath fs p then remove_fn fs p else (fs, .ok ())

/-- `write_editor_text_atomic_with_replace` from the source.  `replace_fn` is
the injected replace primitive exactly as in the Rust signature; `remove_fn`
models the fallible `fs::remove_file` primitive used for the stale-temp
removal and the failure-path cleanup.  `File::create`, `write_all` and
`sync_all` act only on the temp file and are modelled as the infallible
`fsSet` (their Rust failure modes only wrap stage context around errors of
operations on the temp file).  The returned filesystem records the side
effects performed up to a failure. -/
def write_editor_text_atomic_with_replace (fs : FS) (path : PathC)
    (bytes : String)
    (replace_fn : FS → PathC → PathC → FS × Except String Unit)
    (remove_fn : FS → PathC → FS × Except String Unit) :
    FS × Except String Unit :=
  match pathParent path with
  | none => (fs, .error "editor autosave path has no parent directory")
  | some _parent =>
    match editor_temp_path_for_atomic_write path with
    | .error e => (fs, .error e)
    | .ok temp_path =>
      match (if fsContainsPath fs temp_path then remove_fn fs temp_path
             else (fs, .ok ())) with
      | (fs1, .error e) => (fs1, .error e)
      | (fs1, .ok ()) =>
        let fs2 := fsSet fs1 temp_path bytes
        match replace_fn fs2 temp_path path with
        | (fs3, .ok ()) => (fs3, .ok ())
        | (fs3, .error re) =>
          let replace_error :=
            "editor autosave atomic write failed (replace target): " ++ re
          match cleanup_editor_temp_file fs3 temp_path remove_fn with
          | (fs4, .ok ()) => (fs4, .error replace_error)
          | (fs4, .error ce) =>
            (fs4, .error (replace_error ++ "; cleanup temp failed: " ++ ce))

/-- `replace_editor_target_with_temp` on the non-Windows path:
`fs::rename(temp_path, target_path)`, always succeeding in the sequential
model (the temp file exists when it is called). -/
def replace_editor_target_with_temp (fs : FS) (temp_path target_path : PathC) :
    FS × Except String Unit :=
  (fsRename fs temp_path target_path, .ok ())

/-- The default, never-failing model of `fs::remove_file`. -/
def remove_file_default (fs : FS) (p : PathC) : FS × Except String Unit :=
  (fsRemove fs p, .ok ())

/-- `write_editor_text_atomic` from the source: the atomic writer with the
platform replace primitive. -/
def write_editor_text_atomic (fs : FS) (path : PathC) (bytes : String) :
    FS × Except String Unit :=
  write_editor_text_atomic_with_replace fs path bytes
    replace_editor_target_with_temp remove_file_default

/-- `save_editor_text_payload_atomic` from the source.  The serde JSON
round-trip of the payload is the identity in the model (the payload is a pair
of strings, and `to_vec` followed by `from_slice` reproduces it). -/
def save_editor_text_payload_atomic (fs : FS)
    (payload : EditorAutoSavePayload) : FS × Except String PathC :=
  match write_editor_text_atomic fs payload.current_path
      payload.editor_text with
  | (fs2, .ok ()) => (fs2, .ok payload.current_path)
  | (fs2, .error e) => (fs2, .error e)

/-- `SinglelineFileState` from the source. -/
inductive SinglelineFileState where
  | Neutral
  | New
  | Edit
deriving DecidableEq

/-- `WorkflowStateInner` from the source: the mutexed bookkeeping of the
workflow state machine. -/
structure WorkflowStateInner where
  state : SinglelineFileState
  current_edit_path : Option PathC
  last_create_event_raised_at : Option Nat
deriving DecidableEq

/-- The state a fresh `SinglelineCreateFileWorkflow` starts in. -/
def initialWorkflowInner : WorkflowStateInner :=
  { state := .Neutral, current_edit_path := none,
    last_create_event_raised_at := none }

/-- `Instant::checked_duration_since`: `none` when `earlier` is later. -/
def checked_duration_since (now earlier : Nat) : Option Nat :=
  if earlier ≤ now then some (now - earlier) else none

/-- `reset_startup_to_neutral` from the source. -/
def reset_startup_to_neutral (inner : WorkflowStateInner) :
    WorkflowStateInner :=
  { inner with state := .Neutral, current_edit_path := none }

/-- `set_edit_from_open_file` from the source. -/
def set_edit_from_open_file (inner : WorkflowStateInner) (path : PathC) :
    WorkflowStateInner :=
  { inner with state := .Edit, current_edit_path := some path }

/-- `transition_edit_to_neutral` from the source: legal only from `Edit`,
returning whether the transition happened. -/
def transition_edit_to_neutral (inner : WorkflowStateInner) :
    WorkflowStateInner × Bool :=
  if inner.state ≠ SinglelineFileState.Edit then (inner, false)
  else ({ inner with state := .Neutral, current_edit_path := none }, true)

/-- The throttle test of `try_create_from_neutral`: the event is ready when
the elapsed time since the last raise strictly exceeds
`CREATE_EVENT_MIN_INTERVAL` (strict `>` in the source), and not ready when
`checked_duration_since` yields `none`. -/
def create_event_ready (now_instant : Nat) (last : Nat) : Bool :=
  match checked_duration_since now_instant last with
  | some elapsed => decide (CREATE_EVENT_MIN_INTERVAL < elapsed)
  | none => false

/-- `try_create_from_neutral` from the source, with the dispatcher's worker
inlined: the dispatched `Create` event runs `create_new_text_file` (the
worker's `process_event` wraps its result as `Created`, the only constructor
a `Create` event can produce, so the `Renamed`/`AutoSaved` arms of the Rust
`match` are unreachable and the `Created` arm is modelled directly).
Returns the new inner state, the new filesystem, and the call's result. -/
def try_create_from_neutral (inner : WorkflowStateInner) (fs : FS)
    (singleline_value : String) (user_document_dir : PathC)
    (now_instant : Nat) (now_local : Timestamp) :
    WorkflowStateInner × FS × Except String (Option PathC) :=
  if inner.state ≠ SinglelineFileState.Neutral then (inner, fs, .ok none)
  else
    let inner1 := { inner with state := SinglelineFileState.New }
    let throttled :=
      match inner.last_create_event_raised_at with
      | some last => !create_event_ready now_instant last
      | none => false
    if throttled then (inner1, fs, .ok none)
    else
      let inner2 :=
        { inner1 with last_create_event_raised_at := some now_instant }
      match create_new_text_file fs
          { user_document_dir := user_document_dir,
            singleline_value := singleline_value, now := now_local } with
      | .error e => (inner2, fs, .error e)
      | .ok (fs2, path) =>
        ({ inner2 with state := .Edit, current_edit_path := some path },
          fs2, .ok (some path))

/-- `try_rename_in_edit` from the source, with the dispatcher's worker
inlined (a `Rename` event can only produce `Renamed`). -/
def try_rename_in_edit (inner : WorkflowStateInner) (fs : FS)
    (singleline_value : String) (now_local : Timestamp) :
    WorkflowStateInner × FS × Except String (Option PathC) :=
  if inner.state ≠ SinglelineFileState.Edit then (inner, fs, .ok none)
  else
    match inner.current_edit_path with
    | none => (inner, fs, .ok none)
    | some current_path =>
      match rename_text_file fs
          { current_path := current_path,
            singleline_value := singleline_value, now := now_local } with
      | .error e => (inner, fs, .error e)
      | .ok (fs2, path) =>
        ({ inner with current_edit_path := some path }, fs2, .ok (some path))

/-- `try_autosave_in_edit` from the source, with the dispatcher's worker
inlined (an `AutoSave` event can only produce `AutoSaved`). -/
def try_autosave_in_edit (inner : WorkflowStateInner) (fs : FS)
    (payload : EditorAutoSavePayload) :
    WorkflowStateInner × FS × Except String Bool :=
  if inner.state ≠ SinglelineFileState.Edit then (inner, fs, .ok false)
  else
    match inner.current_edit_path with
    | none => (inner, fs, .ok false)
    | some current_path =>
      if current_path ≠ payload.current_path then (inner, fs, .ok false)
      else
        match save_editor_text_payload_atomic fs payload with
        | (fs2, .error e) => (inner, fs2, .error e)
        | (fs2, .ok _path) => (inner, fs2, .ok true)

/-- `EditorAutoSaveState` from the source. -/
structure EditorAutoSaveState where
  pinned_time : Option Nat
  pending_payload : Option EditorAutoSavePayload
  last_delta_trace_secs : Option Nat
deriving DecidableEq

/-- The state a fresh `EditorAutoSaveCoordinator` starts in (`Default`). -/
def initialAutoSaveState : EditorAutoSaveState :=
  { pinned_time := none, pending_payload := none,
    last_delta_trace_secs := none }

/-- `mark_user_edit` from the source: arm the idle timer only when not armed,
always overwrite the pending payload. -/
def mark_user_edit (s : EditorAutoSaveState)
    (payload : EditorAutoSavePayload) (now : Nat) : EditorAutoSaveState :=
  let s1 :=
    if s.pinned_time = none then
      { s with pinned_time := some now, last_delta_trace_secs := none }
    else s
  { s1 with pending_payload := some payload }

/-- `on_edit_path_changed` from the source: retarget a pending payload to the
new live path, or clear everything when the edit target is cleared. -/
def on_edit_path_changed (s : EditorAutoSaveState) (path : Option PathC) :
    EditorAutoSaveState :=
  match path with
  | some p =>
    match s.pending_payload with
    | some payload =>
      { s with pending_payload := some { payload with current_path := p } }
    | none => s
  | none =>
    { pinned_time := none, pending_payload := none,
      last_delta_trace_secs := none }

/-- `pop_due_payload` from the source.  `Instant::duration_since` saturates
to zero, so the delta is truncated `Nat` subtraction; `Duration::as_secs` is
division by 1000 (milliseconds model).  The `last_delta_trace_secs` update is
the debug-trace bookkeeping performed before the due test. -/
def pop_due_payload (s : EditorAutoSaveState) (now idle_duration : Nat) :
    EditorAutoSaveState × Option EditorAutoSavePayload :=
  match s.pinned_time with
  | none => (s, none)
  | some pinned =>
    let delta := now - pinned
    let s1 :=
      if s.pending_payload.isSome &&
          !(decide (s.last_delta_trace_secs = some (delta / 1000))) then
        { s with last_delta_trace_secs := some (delta / 1000) }
      else s
    if delta < idle_duration then (s1, none)
    else
      ({ pinned_time := none, pending_payload := none,
          last_delta_trace_secs := none }, s.pending_payload)

/-- One complete (run-to-completion) workflow operation: the six public
methods of `SinglelineCreateFileWorkflow`, each executed atomically with its
dispatch and completion. -/
inductive WorkflowOp where
  | reset
  | openFile (path : PathC)
  | editToNeutral
  | create (value : String) (dir : PathC) (now_instant : Nat)
      (now_local : Timestamp)
  | rename (value : String) (now_local : Timestamp)
  | autosave (payload : EditorAutoSavePayload)

/-- Apply one complete workflow operation to the inner state and filesystem,
discarding the call's return value. -/
def applyWorkflowOp (m : WorkflowStateInner × FS) (op : WorkflowOp) :
    WorkflowStateInner × FS :=
  match op with
  | .reset => (reset_startup_to_neutral m.1, m.2)
  | .openFile p => (set_edit_from_open_file m.1 p, m.2)
  | .editToNeutral => ((transition_edit_to_neutral m.1).1, m.2)
  | .create v d ni nl =>
    let r := try_create_from_neutral m.1 m.2 v d ni nl
    (r.1, r.2.1)
  | .rename v nl =>
    let r := try_rename_in_edit m.1 m.2 v nl
    (r.1, r.2.1)
  | .autosave pl =>
    let r := try_autosave_in_edit m.1 m.2 pl
    (r.1, r.2.1)

/-- Run a sequence of complete workflow operations from the initial workflow
state over an arbitrary starting filesystem. -/
def runWorkflowOps (fs : FS) (ops : List WorkflowOp) :
    WorkflowStateInner × FS :=
  ops.foldl applyWorkflowOp (initialWorkflowInner, fs)

/-- The interleaved workflow machine: the mutexed inner state, the
filesystem, and the requests whose dispatch has been enqueued but whose
completion (the lock re-acquisition after `dispatch_blocking` returns) has
not yet run.  The worker serializes execution, so pending requests complete
in FIFO order. -/
structure WMachine where
  inner : WorkflowStateInner
  fs : FS
  pending_creates : List CreateFileRequest
  pending_renames : List RenameFileRequest
  pending_autosaves : List EditorAutoSavePayload
deriving DecidableEq

/-- The pre-dispatch phase of `try_create_from_neutral`: everything done
under the first lock acquisition, enqueueing the request when it proceeds. -/
def applyCreateStart (m : WMachine) (value : String) (dir : PathC)
    (now_instant : Nat) (now_local : Timestamp) : WMachine :=
  if m.inner.state ≠ SinglelineFileState.Neutral then m
  else
    let inner1 := { m.inner with state := SinglelineFileState.New }
    let throttled :=
      match m.inner.last_create_event_raised_at with
      | some last => !create_event_ready now_instant last
      | none => false
    if throttled then { m with inner := inner1 }
    else
      { m with
        inner :=
          { inner1 with last_create_event_raised_at := some now_instant },
        pending_creates := m.pending_creates ++
          [{ user_document_dir := dir, singleline_value := value,
             now := now_local }] }

/-- The completion phase of `try_create_from_neutral`: the worker executes
the oldest pending create, and on a `Created` result the caller re-locks and
moves to `Edit` with the returned path (on an error the caller propagates it
without touching the state). -/
def applyCreateFinish (m : WMachine) : WMachine :=
  match m.pending_creates with
  | [] => m
  | request :: rest =>
    match create_new_text_file m.fs request with
    | .error _ => { m with pending_creates := rest }
    | .ok (fs2, path) =>
      let inner2 :=
        { m.inner with
          state := SinglelineFileState.Edit,
          current_edit_path := some path }
      { m with inner := inner2, fs := fs2, pending_creates := rest }

/-- The pre-dispatch phase of `try_rename_in_edit`: the current path is read
under the lock and captured into the dispatched request. -/
def applyRenameStart (m : WMachine) (value : String)
    (now_local : Timestamp) : WMachine :=
  if m.inner.state ≠ SinglelineFileState.Edit then m
  else
    match m.inner.current_edit_path with
    | none => m
    | some current_path =>
      { m with pending_renames := m.pending_renames ++
          [{ current_path := current_path, singleline_value := value,
             now := now_local }] }

/-- The completion phase of `try_rename_in_edit`: on a `Renamed` result the
caller re-locks and updates `current_edit_path` to the returned path —
without re-checking or restoring `state`. -/
def applyRenameFinish (m : WMachine) : WMachine :=
  match m.pending_renames with
  | [] => m
  | request :: rest =>
    match rename_text_file m.fs request with
    | .error _ => { m with pending_renames := rest }
    | .ok (fs2, path) =>
      { m with
        inner := { m.inner with current_edit_path := some path },
        fs := fs2, pending_renames := rest }

/-- The pre-dispatch phase of `try_autosave_in_edit`: the state and path
guard evaluated under the lock. -/
def applyAutosaveStart (m : WMachine) (payload : EditorAutoSavePayload) :
    WMachine :=
  if m.inner.state ≠ SinglelineFileState.Edit then m
  else
    match m.inner.current_edit_path with
    | none => m
    | some current_path =>
      if current_path ≠ payload.current_path then m
      else { m with pending_autosaves := m.pending_autosaves ++ [payload] }

/-- The completion phase of `try_autosave_in_edit`: the worker writes the
file; the caller mutates no workflow state either way. -/
def applyAutosaveFinish (m : WMachine) : WMachine :=
  match m.pending_autosaves with
  | [] => m
  | payload :: rest =>
    { m with
      fs := (save_editor_text_payload_atomic m.fs payload).1,
      pending_autosaves := rest }

/-- Workflow machine states reachable from the initial workflow state over
the starting filesystem `fs0` by any interleaving of the six operations,
where a `try_*` operation's dispatch and completion are separate steps with
arbitrary steps allowed in between. -/
inductive WorkflowReach (fs0 : FS) : WMachine → Prop where
  | init : WorkflowReach fs0
      { inner := initialWorkflowInner, fs := fs0, pending_creates := [],
        pending_renames := [], pending_autosaves := [] }
  | reset {m} : WorkflowReach fs0 m →
      WorkflowReach fs0 { m with inner := reset_startup_to_neutral m.inner }
  | openFile {m} (path : PathC) : WorkflowReach fs0 m →
      WorkflowReach fs0
        { m with inner := set_edit_from_open_file m.inner path }
  | editToNeutral {m} : WorkflowReach fs0 m →
      WorkflowReach fs0
        { m with inner := (transition_edit_to_neutral m.inner).1 }
  | createStart {m} (value : String) (dir : PathC) (now_instant : Nat)
      (now_local : Timestamp) : WorkflowReach fs0 m →
      WorkflowReach fs0 (applyCreateStart m value dir now_instant now_local)
  | createFinish {m} : WorkflowReach fs0 m →
      WorkflowReach fs0 (applyCreateFinish m)
  | renameStart {m} (value : String) (now_local : Timestamp) :
      WorkflowReach fs0 m →
      WorkflowReach fs0 (applyRenameStart m value now_local)
  | renameFinish {m} : WorkflowReach fs0 m →
      WorkflowReach fs0 (applyRenameFinish m)
  | autosaveStart {m} (payload : EditorAutoSavePayload) :
      WorkflowReach fs0 m →
      WorkflowReach fs0 (applyAutosaveStart m payload)
  | autosaveFinish {m} : WorkflowReach fs0 m →
      WorkflowReach fs0 (applyAutosaveFinish m)

/-- Autosave-coordinator states reachable from the initial (default) state
by any sequence of `mark_user_edit`, `on_edit_path_changed` and
`pop_due_payload`. -/
inductive AutosaveReach : EditorAutoSaveState → Prop where
  | init : AutosaveReach initialAutoSaveState
  | mark {s} (payload : EditorAutoSavePayload) (now : Nat) :
      AutosaveReach s → AutosaveReach (mark_user_edit s payload now)
  | pathChanged {s} (path : Option PathC) :
      AutosaveReach s → AutosaveReach (on_edit_path_changed s path)
  | pop {s} (now idle_duration : Nat) :
      AutosaveReach s → AutosaveReach (pop_due_payload s now idle_duration).1

instance {ε α : Type} [DecidableEq ε] [DecidableEq α] :
    DecidableEq (Except ε α) := fun x y =>
  match x, y with
  | .ok a, .ok b =>
    if h : a = b then .isTrue (by rw [h])
    else .isFalse (by intro hc; cases hc; exact h rfl)
  | .ok _, .error _ => .isFalse (by intro hc; cases hc)
  | .error _, .ok _ => .isFalse (by intro hc; cases hc)
  | .error e, .error f =>
    if h : e = f then .isTrue (by rw [h])
    else .isFalse (by intro hc; cases hc; exact h rfl)

/-! ## Basic lemmas about the filesystem and rendering helpers -/

theorem fsGet_fsSet (fs : FS) (p : PathC) (v : String) (q : PathC) :
    fsGet (fsSet fs p v) q = if p = q then some v else fsGet fs q := by
  induction fs with
  | nil => by_cases hpq : p = q <;> simp [fsSet, fsGet, hpq]
  | cons e rest ih =>
    by_cases h1 : e.1 = p <;> by_cases hpq : p = q <;>
      simp_all [fsSet, fsGet]

theorem fsGet_fsRemove (fs : FS) (p q : PathC) :
    fsGet (fsRemove fs p) q = if p = q then none else fsGet fs q := by
  induction fs with
  | nil => by_cases hpq : p = q <;> simp [fsRemove, fsGet, hpq]
  | cons e rest ih =>
    by_cases h1 : e.1 = p <;> by_cases hpq : p = q <;>
      simp_all [fsRemove, fsGet]

theorem padDigits_length (w n : Nat) : (padDigits w n).length = w := by
  induction w generalizing n with
  | zero => rfl
  | succ w ih => simp [padDigits, ih]

theorem digitChar_isDigit (n : Nat) : (digitChar n).isDigit = true := by
  unfold digitChar
  split_ifs <;> decide

theorem padDigits_all_digits (w n : Nat) :
    ∀ c ∈ padDigits w n, c.isDigit = true := by
  induction w generalizing n with
  | zero => intro c hc; cases hc
  | succ w ih =>
    intro c hc
    rcases hc with _ | ⟨_, hc⟩
    · exact digitChar_isDigit _
    · exact ih n c hc

/-- The fixed timestamp used by the repository's tests
(`2026-02-28T12:34:56.789`), reused for concrete instances below. -/
def fixedNow : Timestamp := ⟨2026, 2, 28, 12, 34, 56, 789⟩

/-! ## C7: sanitize_filename_stem -/

/-- C7: for every input string, `sanitize_filename_stem` keeps exactly the
first `min (length raw) 64` code points, and the character at each kept
position is `_` when the input character there is one of the nine reserved
characters or a control character, and the input character itself otherwise
(so multi-byte characters are kept verbatim in order, and the result has at
most 64 Unicode code points — `List Char` counts code points, not bytes). -/
theorem C7_sanitize_filename_stem_spec (raw : String) :
    (sanitize_filename_stem raw).data.length =
        min raw.data.length MAX_FILE_STEM_CHARS ∧
    (sanitize_filename_stem raw).data.length ≤ MAX_FILE_STEM_CHARS ∧
    ∀ i : Nat, i < (sanitize_filename_stem raw).data.length →
      i < raw.data.length ∧
      (sanitize_filename_stem raw).data.getD i ' ' =
        (if invalid_filename_char (raw.data.getD i ' ') then '_'
         else raw.data.getD i ' ') := by
  have hdata : (sanitize_filename_stem raw).data =
      (raw.data.map fun ch =>
        if invalid_filename_char ch then '_' else ch).take
        MAX_FILE_STEM_CHARS := rfl
  have hlen : (sanitize_filename_stem raw).data.length =
      min raw.data.length MAX_FILE_STEM_CHARS := by
    rw [hdata, List.length_take, List.length_map, Nat.min_comm]
  refine ⟨hlen, by rw [hlen]; exact Nat.min_le_right _ _, ?_⟩
  intro i hi
  have hiraw : i < raw.data.length := by
    rw [hlen] at hi
    exact lt_of_lt_of_le hi (Nat.min_le_left _ _)
  refine ⟨hiraw, ?_⟩
  have hi2 : i < ((raw.data.map fun ch =>
      if invalid_filename_char ch then '_' else ch).take
        MAX_FILE_STEM_CHARS).length := by
    rw [hdata] at hi; exact hi
  rw [hdata, List.getD_eq_getElem _ _ hi2, List.getElem_take,
    List.getElem_map, List.getD_eq_getElem _ _ hiraw]

/-- Witness for C7 at the concrete input `"a<b"`: position 1 holds an
invalid character and is replaced by an underscore, position 2 is kept. -/
theorem C7_witness :
    (sanitize_filename_stem "a<b").data.length =
        min "a<b".data.length MAX_FILE_STEM_CHARS ∧
    (sanitize_filename_stem "a<b").data.getD 1 ' ' =
      (if invalid_filename_char ("a<b".data.getD 1 ' ') then '_'
       else "a<b".data.getD 1 ' ') ∧
    (sanitize_filename_stem "a<b").data.getD 2 ' ' =
      (if invalid_filename_char ("a<b".data.getD 2 ' ') then '_'
       else "a<b".data.getD 2 ' ') :=
  ⟨(C7_sanitize_filename_stem_spec "a<b").1,
    ((C7_sanitize_filename_stem_spec "a<b").2.2 1 (by decide)).2,
    ((C7_sanitize_filename_stem_spec "a<b").2.2 2 (by decide)).2⟩

/-! ## C8: the spec's example 3 -/

/-- The spec example's input, unescaped: the 14 characters
`h e < l > l : o * ? " | / \`. -/
def c8_input : String := "he<l>l:o*?\"|/\\"

/-- C8 counterexample: on the 14-character input written in the spec's
example 3, `stem_from_singleline_value` does not return the 15-character
string `"he_l_l_o_______"` (seven trailing underscores) that the example
states — sanitization is length-preserving before truncation, so a
14-character input cannot yield a 15-character stem.  (The repository's own
test `newf_test12` uses a 15-character input with two backslashes.) -/
theorem C8_counterexample :
    stem_from_singleline_value c8_input fixedNow ≠ "he_l_l_o_______" ∧
    c8_input.data.length = 14 ∧
    ("he_l_l_o_______" : String).data.length = 15 := by decide

/-- C8 amended: on the spec example's 14-character input,
`stem_from_singleline_value` returns the 14-character string
`"he_l_l_o______"` — `"he_l_l_o"` followed by six underscores — for every
timestamp. -/
theorem C8_amended (now : Timestamp) :
    stem_from_singleline_value c8_input now = "he_l_l_o______" ∧
    ("he_l_l_o______" : String).data.length = 14 :=
  ⟨rfl, rfl⟩

/-! ## C9: the notitle fallback stem -/

/-- C9: for every timestamp (within the calendar ranges where the rendering
model agrees with chrono — in particular a four-digit year, since chrono
renders larger years with extra digits and a sign), an empty title value, or
one that sanitizes to empty, yields the stem `"notitle-"` followed by
exactly 17 ASCII digits (4+2+2 calendar digits, 2+2+2 time digits, 3
millisecond digits); every other value yields the sanitized value. -/
theorem C9_notitle_stem_spec (value : String) (now : Timestamp)
    (_hvalid : now.Valid) :
    ((value = "" ∨ sanitize_filename_stem value = "") →
      stem_from_singleline_value value now = notitle_stem now ∧
      (notitle_stem now).data =
        "notitle-".data ++ (timestampCompact now).data ∧
      (timestampCompact now).data.length = 17 ∧
      ∀ c ∈ (timestampCompact now).data, c.isDigit = true) ∧
    (value ≠ "" → sanitize_filename_stem value ≠ "" →
      stem_from_singleline_value value now = sanitize_filename_stem value) := by
  constructor
  · intro hempty
    refine ⟨?_, ?_, ?_, ?_⟩
    · rcases hempty with h | h
      · simp [stem_from_singleline_value, h]
      · by_cases hv : value = ""
        · simp [stem_from_singleline_value, hv]
        · simp [stem_from_singleline_value, hv, h]
    · exact String.data_append _ _
    · show (String.mk _).data.length = 17
      simp [List.length_append, padDigits_length]
    · intro c hc
      show c.isDigit = true
      have hc2 : c ∈ padDigits 4 now.year ++ padDigits 2 now.month ++
          padDigits 2 now.day ++ padDigits 2 now.hour ++
          padDigits 2 now.minute ++ padDigits 2 now.second ++
          padDigits 3 now.millisecond := hc
      simp only [List.mem_append] at hc2
      rcases hc2 with ((((((h | h) | h) | h) | h) | h) | h) <;>
        exact padDigits_all_digits _ _ c h
  · intro hv hs
    simp [stem_from_singleline_value, hv, hs]

/-- Witness for C9 at the empty title and the tests' fixed timestamp. -/
theorem C9_witness :
    stem_from_singleline_value "" fixedNow = notitle_stem fixedNow ∧
    (timestampCompact fixedNow).data.length = 17 ∧
    stem_from_singleline_value "hello" fixedNow =
      sanitize_filename_stem "hello" :=
  ⟨((C9_notitle_stem_spec "" fixedNow
      (by unfold Timestamp.Valid; decide)).1 (Or.inl rfl)).1,
    ((C9_notitle_stem_spec "" fixedNow
      (by unfold Timestamp.Valid; decide)).1 (Or.inl rfl)).2.2.1,
    (C9_notitle_stem_spec "hello" fixedNow
      (by unfold Timestamp.Valid; decide)).2
      (by decide) (by decide)⟩

/-! ## C6: unique-path resolution -/

theorem resolve_loop_sound (fs : FS) (dir : PathC) (stem : String)
    (excl : Option PathC) :
    ∀ fuel suffix p,
      resolve_unique_txt_path_loop fs dir stem excl suffix fuel = some p →
      ∃ j, j < fuel ∧ p = txt_candidate dir stem (suffix + j) ∧
        candidate_available fs excl p = true ∧
        ∀ i, i < j →
          candidate_available fs excl
            (txt_candidate dir stem (suffix + i)) = false := by
  intro fuel
  induction fuel with
  | zero => intro suffix p h; simp [resolve_unique_txt_path_loop] at h
  | succ fuel ih =>
    intro suffix p h
    simp only [resolve_unique_txt_path_loop] at h
    by_cases hx : excl = some (txt_candidate dir stem suffix)
    · rw [if_pos hx] at h
      cases h
      refine ⟨0, Nat.succ_pos _, by simp, ?_, by intro i hi; omega⟩
      simp [candidate_available, hx]
    · rw [if_neg hx] at h
      by_cases hc : fsContainsPath fs (txt_candidate dir stem suffix) = true
      · rw [if_pos hc] at h
        obtain ⟨j, hj, hp, hav, hmin⟩ := ih (suffix + 1) p h
        refine ⟨j + 1, by omega, by rw [hp]; congr 1; omega, hav, ?_⟩
        intro i hi
        cases i with
        | zero => simp [candidate_available, hx, hc]
        | succ i =>
          have hi2 := hmin i (by omega)
          rw [show suffix + (i + 1) = suffix + 1 + i by omega]
          exact hi2
      · rw [if_neg hc] at h
        cases h
        refine ⟨0, Nat.succ_pos _, by simp, ?_, by intro i hi; omega⟩
        simp only [candidate_available, Bool.or_eq_true]
        right
        simp only [Bool.not_eq_true] at hc
        simp [hc]

theorem resolve_loop_complete (fs : FS) (dir : PathC) (stem : String)
    (excl : Option PathC) :
    ∀ fuel suffix,
      (∃ j, j < fuel ∧
        candidate_available fs excl
          (txt_candidate dir stem (suffix + j)) = true) →
      (resolve_unique_txt_path_loop fs dir stem excl suffix fuel).isSome =
        true := by
  intro fuel
  induction fuel with
  | zero => rintro suffix ⟨j, hj, _⟩; omega
  | succ fuel ih =>
    rintro suffix ⟨j, hj, hav⟩
    simp only [resolve_unique_txt_path_loop]
    by_cases hx : excl = some (txt_candidate dir stem suffix)
    · rw [if_pos hx]; rfl
    · rw [if_neg hx]
      by_cases hc : fsContainsPath fs (txt_candidate dir stem suffix) = true
      · rw [if_pos hc]
        apply ih
        cases j with
        | zero =>
          exfalso
          simp only [Nat.add_zero] at hav
          simp [candidate_available, hx, hc] at hav
        | succ j =>
          refine ⟨j, by omega, ?_⟩
          rw [show suffix + 1 + j = suffix + (j + 1) by omega]
          exact hav
      · rw [if_neg hc]; rfl

/-- The directory contents of the spec's collision scenario: the daily
directory for the tests' fixed timestamp already holds `hello.txt` and
`hello_2.txt`. -/
def c6_seed_fs : FS :=
  [(["root", "2026", "02", "28", "hello.txt"], ""),
   (["root", "2026", "02", "28", "hello_2.txt"], "")]

/-- The create request of the collision scenario. -/
def c6_request : CreateFileRequest :=
  { user_document_dir := ["root"], singleline_value := "hello",
    now := fixedNow }

/-- The path the collision scenario must produce. -/
def c6_third_path : PathC := ["root", "2026", "02", "28", "hello_3.txt"]

/-- C6: (1) whenever `resolve_unique_txt_path` returns a path, that path is
the first candidate in the order `stem.txt`, `stem_2.txt`, `stem_3.txt`, …
that either equals the exclude path or does not exist (every earlier
candidate is unavailable); (2) conversely it returns a path whenever some
candidate within the fuel bound is available; (3) in a directory already
holding `stem.txt` and `stem_2.txt`, a create with the same stem yields
`stem_3.txt`; (4) `rename_text_file` with a title resolving to the file's
current stem returns the current path unchanged and performs no rename (the
filesystem is returned as it was). -/
theorem C6_resolve_unique_txt_path_spec :
    (∀ fs dir stem excl p,
      resolve_unique_txt_path fs dir stem excl = some p →
      ∃ j, j < fs.length + 1 ∧ p = txt_candidate dir stem (1 + j) ∧
        candidate_available fs excl p = true ∧
        ∀ i, i < j →
          candidate_available fs excl
            (txt_candidate dir stem (1 + i)) = false) ∧
    (∀ fs dir stem excl,
      (∃ j, j < fs.length + 1 ∧
        candidate_available fs excl
          (txt_candidate dir stem (1 + j)) = true) →
      (resolve_unique_txt_path fs dir stem excl).isSome = true) ∧
    (create_new_text_file c6_seed_fs c6_request =
      .ok (c6_seed_fs ++ [(c6_third_path, "")], c6_third_path)) ∧
    (∀ fs parent stemS value ts,
      fsContainsPath fs (parent ++ [stemS ++ ".txt"]) = true →
      stem_from_singleline_value value ts = stemS →
      rename_text_file fs
        { current_path := parent ++ [stemS ++ ".txt"],
          singleline_value := value, now := ts } =
        .ok (fs, parent ++ [stemS ++ ".txt"])) := by
  refine ⟨?_, ?_, ?_, ?_⟩
  · intro fs dir stem excl p h
    exact resolve_loop_sound fs dir stem excl (fs.length + 1) 1 p h
  · intro fs dir stem excl h
    exact resolve_loop_complete fs dir stem excl (fs.length + 1) 1 h
  · decide
  · intro fs parent stemS value ts hmem hstem
    have hne : parent ++ [stemS ++ ".txt"] ≠ [] := by simp
    have hcand : txt_candidate parent stemS 1 =
        parent ++ [stemS ++ ".txt"] := by
      simp [txt_candidate]
    unfold rename_text_file
    simp only [hmem, Bool.true_eq_false, if_neg, if_false]
    rw [pathParent, if_neg hne]
    simp only [List.dropLast_concat]
    rw [hstem]
    have hres : resolve_unique_txt_path fs parent stemS
        (some (parent ++ [stemS ++ ".txt"])) =
        some (parent ++ [stemS ++ ".txt"]) := by
      unfold resolve_unique_txt_path
      show resolve_unique_txt_path_loop fs parent stemS _ 1
          (fs.length + 1) = _
      simp only [resolve_unique_txt_path_loop]
      rw [if_pos (by rw [hcand])]
      rw [hcand]
    rw [hres]
    simp

/-- Witness for C6: the rename-to-same-name no-op at a concrete one-file
directory, and the first-available characterization applied to the concrete
collision scenario (which resolves to index 2, i.e. `hello_3.txt`, with both
earlier candidates unavailable). -/
theorem C6_witness :
    rename_text_file [(["d", "same.txt"], "body")]
      { current_path := ["d", "same.txt"], singleline_value := "same",
        now := fixedNow } =
      .ok ([(["d", "same.txt"], "body")], ["d", "same.txt"]) ∧
    ∃ j, j < c6_seed_fs.length + 1 ∧
      c6_third_path =
        txt_candidate ["root", "2026", "02", "28"] "hello" (1 + j) ∧
      candidate_available c6_seed_fs none c6_third_path = true ∧
      ∀ i, i < j →
        candidate_available c6_seed_fs none
          (txt_candidate ["root", "2026", "02", "28"] "hello" (1 + i)) =
            false :=
  ⟨C6_resolve_unique_txt_path_spec.2.2.2 [(["d", "same.txt"], "body")]
      ["d"] "same" "same" fixedNow (by decide) (by decide),
    C6_resolve_unique_txt_path_spec.1 c6_seed_fs
      ["root", "2026", "02", "28"] "hello" none c6_third_path (by decide)⟩

/-! ## C1: the atomic writer's replace-failure behavior -/

/-- `true` when the first character list is an initial run of the second. -/
def charsLeadsWith : List Char → List Char → Bool
  | [], _ => true
  | _ :: _, [] => false
  | a :: as, b :: bs => a == b && charsLeadsWith as bs

/-- `true` when the first character list occurs contiguously inside the
second. -/
def charsContainsRun : List Char → List Char → Bool
  | needle, [] => charsLeadsWith needle []
  | needle, b :: t =>
    charsLeadsWith needle (b :: t) || charsContainsRun needle t

/-- Substring containment on strings (the model of Rust's
`str::contains`, used to state that an error message includes a stage
context). -/
def strContainsSub (needle hay : String) : Bool :=
  charsContainsRun needle.data hay.data

theorem charsLeadsWith_append (n h t : List Char)
    (hh : charsLeadsWith n h = true) :
    charsLeadsWith n (h ++ t) = true := by
  induction n generalizing h with
  | nil => rfl
  | cons a as ih =>
    cases h with
    | nil => cases hh
    | cons b bs =>
      simp only [charsLeadsWith, Bool.and_eq_true] at hh
      simp only [List.cons_append, charsLeadsWith, Bool.and_eq_true]
      exact ⟨hh.1, ih bs hh.2⟩

theorem charsContainsRun_append_right (n h t : List Char)
    (hh : charsContainsRun n h = true) :
    charsContainsRun n (h ++ t) = true := by
  induction h with
  | nil =>
    have hn : n = [] := by
      cases n with
      | nil => rfl
      | cons a as => cases hh
    subst hn
    cases t with
    | nil => rfl
    | cons b bs => simp [charsContainsRun, charsLeadsWith]
  | cons b bs ih =>
    simp only [charsContainsRun, Bool.or_eq_true] at hh
    rcases hh with hh | hh
    · simp only [List.cons_append, charsContainsRun, Bool.or_eq_true]
      left
      have := charsLeadsWith_append n (b :: bs) t hh
      simpa using this
    · simp only [List.cons_append, charsContainsRun, Bool.or_eq_true]
      right
      exact ih hh

theorem charsContainsRun_append_left (n h t : List Char)
    (ht : charsContainsRun n t = true) :
    charsContainsRun n (h ++ t) = true := by
  induction h with
  | nil => exact ht
  | cons b bs ih =>
    simp only [List.cons_append, charsContainsRun, Bool.or_eq_true]
    right
    exact ih

theorem strContainsSub_append_right (n h t : String)
    (hh : strContainsSub n h = true) :
    strContainsSub n (h ++ t) = true := by
  unfold strContainsSub at hh ⊢
  rw [String.data_append]
  exact charsContainsRun_append_right _ _ _ hh

theorem strContainsSub_append_left (n h t : String)
    (ht : strContainsSub n t = true) :
    strContainsSub n (h ++ t) = true := by
  unfold strContainsSub at ht ⊢
  rw [String.data_append]
  exact charsContainsRun_append_left _ _ _ ht

theorem append_tmp_ne (a : String) : a ++ ".tmp" ≠ a := by
  intro h
  have hlen := congrArg (fun s => s.data.length) h
  simp [String.data_append] at hlen

/-- C1: for every filesystem, target path, payload and injected primitives —
provided the replace primitive leaves the target's content unchanged
whenever it fails (the contract of same-directory `fs::rename` and of
`ReplaceFileW`), and the remove primitive only ever affects the path it is
given — the atomic write (1) leaves the target's prior content byte-for-byte
unchanged in every failure path (so the existing target is never deleted or
truncated unless the replace step itself succeeded), and (2) when the
replace step fails it returns an error whose message includes the
`"replace target"` stage context, and which additionally records the
cleanup failure whenever deleting the orphaned temp file fails too. -/
theorem C1_write_atomic_failure_spec
    (fs : FS) (path : PathC) (bytes : String)
    (replace_fn : FS → PathC → PathC → FS × Except String Unit)
    (remove_fn : FS → PathC → FS × Except String Unit)
    (hpath : path ≠ [])
    (hremove_frame : ∀ g q r, r ≠ q → fsGet (remove_fn g q).1 r = fsGet g r)
    (hreplace_frame : ∀ g t q gr e,
      replace_fn g t q = (gr, Except.error e) → fsGet gr q = fsGet g q) :
    (∀ gr e,
      write_editor_text_atomic_with_replace fs path bytes replace_fn
          remove_fn = (gr, Except.error e) →
      fsGet gr path = fsGet fs path) ∧
    (∀ fs1 temp_path,
      editor_temp_path_for_atomic_write path = Except.ok temp_path →
      (if fsContainsPath fs temp_path then remove_fn fs temp_path
       else (fs, Except.ok ())) = (fs1, Except.ok ()) →
      ∀ gr e,
        replace_fn (fsSet fs1 temp_path bytes) temp_path path =
          (gr, Except.error e) →
        ∃ gf msg,
          write_editor_text_atomic_with_replace fs path bytes replace_fn
              remove_fn = (gf, Except.error msg) ∧
          strContainsSub "replace target" msg = true ∧
          ∀ gc ce,
            cleanup_editor_temp_file gr temp_path remove_fn =
              (gc, Except.error ce) →
            strContainsSub "cleanup temp failed" msg = true) := by
  have hparent : pathParent path = some path.dropLast := by
    unfold pathParent; rw [if_neg hpath]
  have hfile : pathFileName path = some (path.getLast hpath) := by
    unfold pathFileName
    conv_lhs => rw [← List.dropLast_append_getLast hpath]
    exact List.getLast?_concat _
  set temp : PathC :=
    path.dropLast ++ [path.getLast hpath ++ ".tmp"] with htempdef
  have htempeq : editor_temp_path_for_atomic_write path = Except.ok temp := by
    unfold editor_temp_path_for_atomic_write
    rw [hparent, hfile]
  have htne : temp ≠ path := by
    intro h
    rw [htempdef] at h
    have h2 := congrArg List.getLast? h
    rw [List.getLast?_concat] at h2
    have h3 : path.getLast? = some (path.getLast hpath) := hfile
    rw [h3] at h2
    injection h2 with h4
    exact append_tmp_ne _ h4
  have hpt : path ≠ temp := fun h => htne h.symm
  rcases hsplit : (if fsContainsPath fs temp then remove_fn fs temp
      else (fs, Except.ok ())) with ⟨fs1, res1⟩
  have hfs1 : fsGet fs1 path = fsGet fs path := by
    by_cases hct : fsContainsPath fs temp = true
    · rw [if_pos hct] at hsplit
      have hfr := hremove_frame fs temp path hpt
      rw [hsplit] at hfr
      exact hfr
    · rw [if_neg hct] at hsplit
      cases hsplit
      rfl
  constructor
  · intro gr e hw
    cases res1 with
    | error e1 =>
      simp only [write_editor_text_atomic_with_replace, hparent, htempeq,
        hsplit] at hw
      injection hw with h1 _
      rw [← h1]
      exact hfs1
    | ok u =>
      cases u
      rcases hrep : replace_fn (fsSet fs1 temp bytes) temp path
        with ⟨fs3, res3⟩
      cases res3 with
      | ok u2 =>
        cases u2
        simp only [write_editor_text_atomic_with_replace, hparent, htempeq,
          hsplit, hrep] at hw
        injection hw with _ h2
        cases h2
      | error re =>
        have hfs2 : fsGet (fsSet fs1 temp bytes) path = fsGet fs1 path := by
          rw [fsGet_fsSet, if_neg htne]
        have hfs3 : fsGet fs3 path = fsGet fs path := by
          have := hreplace_frame (fsSet fs1 temp bytes) temp path fs3 re hrep
          rw [this, hfs2, hfs1]
        rcases hcl : cleanup_editor_temp_file fs3 temp remove_fn
          with ⟨fs4, res4⟩
        have hfs4 : fsGet fs4 path = fsGet fs3 path := by
          unfold cleanup_editor_temp_file at hcl
          by_cases hct3 : fsContainsPath fs3 temp = true
          · rw [if_pos hct3] at hcl
            have hfr := hremove_frame fs3 temp path hpt
            rw [hcl] at hfr
            exact hfr
          · rw [if_neg hct3] at hcl
            cases hcl
            rfl
        cases res4 with
        | ok u3 =>
          cases u3
          simp only [write_editor_text_atomic_with_replace, hparent,
            htempeq, hsplit, hrep, hcl] at hw
          injection hw with h1 _
          rw [← h1, hfs4, hfs3]
        | error ce =>
          simp only [write_editor_text_atomic_with_replace, hparent,
            htempeq, hsplit, hrep, hcl] at hw
          injection hw with h1 _
          rw [← h1, hfs4, hfs3]
  · intro fs1b tempb htempb hsplitb gr e hrep
    rw [htempeq] at htempb
    injection htempb with htv
    subst htv
    rw [hsplit] at hsplitb
    injection hsplitb with hfv hrv
    subst hfv
    subst hrv
    rcases hcl : cleanup_editor_temp_file gr temp remove_fn with ⟨fs4, res4⟩
    cases res4 with
    | ok u =>
      cases u
      refine ⟨fs4,
        "editor autosave atomic write failed (replace target): " ++ e,
        ?_, ?_, ?_⟩
      · simp only [write_editor_text_atomic_with_replace, hparent, htempeq,
          hsplit, hrep, hcl]
      · exact strContainsSub_append_right _ _ _ (by decide)
      · intro gc ce hclc
        injection hclc with _ h2
        cases h2
    | error ce0 =>
      refine ⟨fs4,
        "editor autosave atomic write failed (replace target): " ++ e ++
          "; cleanup temp failed: " ++ ce0, ?_, ?_, ?_⟩
      · simp only [write_editor_text_atomic_with_replace, hparent, htempeq,
          hsplit, hrep, hcl]
      · exact strContainsSub_append_right _ _ _
          (strContainsSub_append_right _ _ _
            (strContainsSub_append_right _ _ _ (by decide)))
      · intro gc ce hclc
        exact strContainsSub_append_right _ _ _
          (strContainsSub_append_left _ _ _ (by decide))

/-- The forced-replace-failure scenario of the repository's test
`aus_test6`, in the model: the target holds `"old"`, the injected replace
primitive always fails, cleanup succeeds. -/
def c1_forced_write : FS × Except String Unit :=
  write_editor_text_atomic_with_replace [(["d", "atomic.txt"], "old")]
    ["d", "atomic.txt"] "new"
    (fun g _ _ => (g, Except.error "forced replace failure"))
    remove_file_default

/-- Witness for C1: on the concrete forced-failure scenario the target's
prior content `"old"` is preserved and the returned message carries the
`"replace target"` stage context. -/
theorem C1_witness :
    fsGet c1_forced_write.1 ["d", "atomic.txt"] = some "old" ∧
    c1_forced_write.2 = Except.error
      "editor autosave atomic write failed (replace target): forced replace failure" ∧
    strContainsSub "replace target"
      "editor autosave atomic write failed (replace target): forced replace failure"
      = true := by
  have hmain := C1_write_atomic_failure_spec [(["d", "atomic.txt"], "old")]
    ["d", "atomic.txt"] "new"
    (fun g _ _ => (g, Except.error "forced replace failure"))
    remove_file_default (by decide)
    (by
      intro g q r hr
      show fsGet (fsRemove g q) r = fsGet g r
      rw [fsGet_fsRemove, if_neg (fun h => hr h.symm)])
    (by
      intro g t q gr e h
      injection h with h1 _
      rw [← h1])
  refine ⟨?_, rfl, by decide⟩
  have hA := hmain.1 c1_forced_write.1
    "editor autosave atomic write failed (replace target): forced replace failure"
    (by decide)
  rw [hA]
  decide

/-! ## C2: the create throttle -/

/-- C2 counterexample: from `Neutral` with a last-create instant of 0 ms and
a now-instant of exactly 1000 ms, the elapsed time equals the minimum
interval, so the claim's "elapsed at least the minimum interval" arm demands
a dispatch and a move to `Edit`; the code's strict
`elapsed > CREATE_EVENT_MIN_INTERVAL` test is false there, so the call
returns `Ok(None)` without dispatching (the filesystem is unchanged) and the
machine is parked in `New`, not `Edit`. -/
theorem C2_counterexample :
    try_create_from_neutral
        { state := SinglelineFileState.Neutral, current_edit_path := none,
          last_create_event_raised_at := some 0 } [] "hello" ["root"]
        1000 fixedNow =
      ({ state := SinglelineFileState.New, current_edit_path := none,
         last_create_event_raised_at := some 0 }, [], Except.ok none) ∧
    SinglelineFileState.New ≠ SinglelineFileState.Edit := by
  exact ⟨by decide, by decide⟩

/-- C2 amended: dispatch happens only when the elapsed time STRICTLY exceeds
the minimum interval.  From `Neutral` with a recorded last-create instant:
when the now-instant is at most `last + CREATE_EVENT_MIN_INTERVAL` (which
covers elapsed below or exactly at the interval, and a now-instant before
the last), the call returns `Ok(None)` with no dispatch and leaves the
machine in `New`; when the elapsed time strictly exceeds the interval, the
create request is dispatched, and on a `Created` result the machine moves to
`Edit` with the returned path and the call returns `Ok(Some path)` (a
dispatch error is propagated with the machine left in `New`). -/
theorem C2_amended (inner : WorkflowStateInner) (fs : FS) (value : String)
    (dir : PathC) (now_instant : Nat) (now_local : Timestamp) (last : Nat)
    (hstate : inner.state = SinglelineFileState.Neutral)
    (hlast : inner.last_create_event_raised_at = some last) :
    (now_instant ≤ last + CREATE_EVENT_MIN_INTERVAL →
      try_create_from_neutral inner fs value dir now_instant now_local =
        ({ inner with state := SinglelineFileState.New }, fs,
          Except.ok none)) ∧
    (last + CREATE_EVENT_MIN_INTERVAL < now_instant →
      (∀ fs2 p,
        create_new_text_file fs
            { user_document_dir := dir, singleline_value := value,
              now := now_local } = Except.ok (fs2, p) →
        try_create_from_neutral inner fs value dir now_instant now_local =
          ({ state := SinglelineFileState.Edit,
             current_edit_path := some p,
             last_create_event_raised_at := some now_instant }, fs2,
            Except.ok (some p))) ∧
      (∀ e,
        create_new_text_file fs
            { user_document_dir := dir, singleline_value := value,
              now := now_local } = Except.error e →
        try_create_from_neutral inner fs value dir now_instant now_local =
          ({ state := SinglelineFileState.New,
             current_edit_path := inner.current_edit_path,
             last_create_event_raised_at := some now_instant }, fs,
            Except.error e))) := by
  constructor
  · intro hle
    have hready : create_event_ready now_instant last = false := by
      have hm : CREATE_EVENT_MIN_INTERVAL = 1000 := rfl
      unfold create_event_ready checked_duration_since
      by_cases h1 : last ≤ now_instant
      · rw [if_pos h1]
        simp only [decide_eq_false_iff_not, not_lt]
        omega
      · rw [if_neg h1]
    unfold try_create_from_neutral
    simp [hstate, hlast, hready]
  · intro hgt
    have hready : create_event_ready now_instant last = true := by
      have hm : CREATE_EVENT_MIN_INTERVAL = 1000 := rfl
      unfold create_event_ready checked_duration_since
      rw [if_pos (by omega)]
      simp only [decide_eq_true_eq]
      omega
    constructor
    · intro fs2 p hc
      unfold try_create_from_neutral
      simp [hstate, hlast, hready, hc]
    · intro e hc
      unfold try_create_from_neutral
      simp [hstate, hlast, hready, hc]

/-- Witness for C2 at concrete instants: 500 ms after the last create the
call no-ops in `New`; 2000 ms after it dispatches, creates
`root/2026/02/28/hello.txt` and moves to `Edit`. -/
theorem C2_witness :
    try_create_from_neutral
        { state := SinglelineFileState.Neutral, current_edit_path := none,
          last_create_event_raised_at := some 0 } [] "hello" ["root"]
        500 fixedNow =
      ({ state := SinglelineFileState.New, current_edit_path := none,
         last_create_event_raised_at := some 0 }, [], Except.ok none) ∧
    try_create_from_neutral
        { state := SinglelineFileState.Neutral, current_edit_path := none,
          last_create_event_raised_at := some 0 } [] "hello" ["root"]
        2000 fixedNow =
      ({ state := SinglelineFileState.Edit,
         current_edit_path := some ["root", "2026", "02", "28", "hello.txt"],
         last_create_event_raised_at := some 2000 },
        [(["root", "2026", "02", "28", "hello.txt"], "")],
        Except.ok (some ["root", "2026", "02", "28", "hello.txt"])) :=
  ⟨(C2_amended _ [] "hello" ["root"] 500 fixedNow 0 rfl rfl).1 (by decide),
    ((C2_amended _ [] "hello" ["root"] 2000 fixedNow 0 rfl rfl).2
      (by decide)).1 [(["root", "2026", "02", "28", "hello.txt"], "")]
      ["root", "2026", "02", "28", "hello.txt"] (by decide)⟩

/-! ## C4: the autosave guard -/

/-- C4: `try_autosave_in_edit` (1) never mutates the workflow's inner state
(state and current edit path are unchanged in all cases), (2) returns
`Ok(true)` only when the state is `Edit` and the current edit path equals
the payload's path, and (3) in any other state, or when the current edit
path is absent or differs from the payload's path, returns `Ok(false)`
without dispatching, leaving the filesystem (hence every file) unchanged. -/
theorem C4_try_autosave_in_edit_spec (inner : WorkflowStateInner) (fs : FS)
    (payload : EditorAutoSavePayload) :
    (try_autosave_in_edit inner fs payload).1 = inner ∧
    ((try_autosave_in_edit inner fs payload).2.2 = Except.ok true →
      inner.state = SinglelineFileState.Edit ∧
      inner.current_edit_path = some payload.current_path) ∧
    ((inner.state ≠ SinglelineFileState.Edit ∨
        inner.current_edit_path ≠ some payload.current_path) →
      try_autosave_in_edit inner fs payload = (inner, fs, Except.ok false)) := by
  obtain ⟨st, pth, lst⟩ := inner
  cases st with
  | Neutral =>
    refine ⟨rfl, ?_, fun _ => rfl⟩
    intro hok
    have h2 : Except.ok false = Except.ok true := hok
    exact absurd h2 (by decide)
  | New =>
    refine ⟨rfl, ?_, fun _ => rfl⟩
    intro hok
    have h2 : Except.ok false = Except.ok true := hok
    exact absurd h2 (by decide)
  | Edit =>
    cases pth with
    | none =>
      refine ⟨rfl, ?_, fun _ => rfl⟩
      intro hok
      have h2 : Except.ok false = Except.ok true := hok
      exact absurd h2 (by decide)
    | some cur =>
      by_cases hne : cur = payload.current_path
      · rcases hs : save_editor_text_payload_atomic fs payload with ⟨fs2, r⟩
        refine ⟨?_, fun _ => ⟨rfl, by rw [hne]⟩, ?_⟩
        · cases r <;> simp [try_autosave_in_edit, hne, hs]
        · intro hbad
          rcases hbad with h | h
          · exact absurd rfl h
          · exact absurd (by rw [hne] : some cur = some payload.current_path)
              h
      · refine ⟨?_, ?_, fun _ => ?_⟩
        · simp [try_autosave_in_edit, hne]
        · intro hok
          exfalso
          have hval : try_autosave_in_edit
              ⟨SinglelineFileState.Edit, some cur, lst⟩ fs payload =
              (⟨SinglelineFileState.Edit, some cur, lst⟩, fs,
                Except.ok false) := by
            simp [try_autosave_in_edit, hne]
          rw [hval] at hok
          have h2 : Except.ok false = Except.ok true := hok
          exact absurd h2 (by decide)
        · simp [try_autosave_in_edit, hne]

/-- Witness for C4: from `Neutral` an autosave payload is rejected with
`Ok(false)`, no write happens and the inner state is untouched. -/
theorem C4_witness :
    try_autosave_in_edit
        { state := SinglelineFileState.Neutral, current_edit_path := none,
          last_create_event_raised_at := none } []
        { current_path := ["d", "x.txt"], editor_text := "content" } =
      ({ state := SinglelineFileState.Neutral, current_edit_path := none,
         last_create_event_raised_at := none }, [], Except.ok false) ∧
    (try_autosave_in_edit
        { state := SinglelineFileState.Neutral, current_edit_path := none,
          last_create_event_raised_at := none } []
        { current_path := ["d", "x.txt"], editor_text := "content" }).1 =
      { state := SinglelineFileState.Neutral, current_edit_path := none,
        last_create_event_raised_at := none } :=
  ⟨(C4_try_autosave_in_edit_spec _ [] _).2.2 (Or.inl (by decide)),
    (C4_try_autosave_in_edit_spec _ [] _).1⟩

/-! ## C3: the workflow-state/path invariant -/

/-- `try_autosave_in_edit` never mutates the workflow's inner state (used to
carry the state/path invariant through autosave steps). -/
theorem try_autosave_frame (inner : WorkflowStateInner) (fs : FS)
    (payload : EditorAutoSavePayload) :
    (try_autosave_in_edit inner fs payload).1 = inner := by
  unfold try_autosave_in_edit
  by_cases hst : inner.state ≠ SinglelineFileState.Edit
  · rw [if_pos hst]
  · rw [if_neg hst]
    cases hp : inner.current_edit_path with
    | none => rfl
    | some cur =>
      simp only []
      by_cases hne : cur ≠ payload.current_path
      · rw [if_pos hne]
      · rw [if_neg hne]
        rcases hs : save_editor_text_payload_atomic fs payload with ⟨fs2, r⟩
        cases r <;> rfl

/-- Every complete workflow operation preserves the invariant
`current_edit_path = none ∨ state = Edit`. -/
theorem applyWorkflowOp_preserves_inv (m : WorkflowStateInner × FS)
    (op : WorkflowOp)
    (hm : m.1.current_edit_path = none ∨
      m.1.state = SinglelineFileState.Edit) :
    (applyWorkflowOp m op).1.current_edit_path = none ∨
      (applyWorkflowOp m op).1.state = SinglelineFileState.Edit := by
  obtain ⟨inner, fs⟩ := m
  obtain ⟨st, pth, lst⟩ := inner
  cases op with
  | reset => left; rfl
  | openFile p => right; rfl
  | editToNeutral =>
    cases st with
    | Edit => left; rfl
    | Neutral => exact hm
    | New => exact hm
  | create v d ni nl =>
    cases st with
    | New => exact hm
    | Edit => exact hm
    | Neutral =>
      have hpn : pth = none := by
        rcases hm with h | h
        · exact h
        · have h2 : SinglelineFileState.Neutral = SinglelineFileState.Edit :=
            h
          exact absurd h2 (by decide)
      subst hpn
      cases lst with
      | none =>
        rcases hc : create_new_text_file fs
            { user_document_dir := d, singleline_value := v, now := nl }
          with e | ⟨fs2, p⟩
        · left
          simp [applyWorkflowOp, try_create_from_neutral, hc]
        · right
          simp [applyWorkflowOp, try_create_from_neutral, hc]
      | some l =>
        cases hr : create_event_ready ni l with
        | false =>
          left
          simp [applyWorkflowOp, try_create_from_neutral, hr]
        | true =>
          rcases hc : create_new_text_file fs
              { user_document_dir := d, singleline_value := v, now := nl }
            with e | ⟨fs2, p⟩
          · left
            simp [applyWorkflowOp, try_create_from_neutral, hr, hc]
          · right
            simp [applyWorkflowOp, try_create_from_neutral, hr, hc]
  | rename v nl =>
    cases st with
    | Neutral => exact hm
    | New => exact hm
    | Edit =>
      cases pth with
      | none => right; rfl
      | some cur =>
        rcases hc : rename_text_file fs
            { current_path := cur, singleline_value := v, now := nl }
          with e | ⟨fs2, p⟩
        · right
          simp [applyWorkflowOp, try_rename_in_edit, hc]
        · right
          simp [applyWorkflowOp, try_rename_in_edit, hc]
  | autosave pl =>
    have hfr := try_autosave_frame ⟨st, pth, lst⟩ fs pl
    rcases hm with h | h
    · left
      show (try_autosave_in_edit ⟨st, pth, lst⟩ fs pl).1.current_edit_path
        = none
      rw [hfr]
      exact h
    · right
      show (try_autosave_in_edit ⟨st, pth, lst⟩ fs pl).1.state
        = SinglelineFileState.Edit
      rw [hfr]
      exact h

/-- The invariant holds after any sequence of complete workflow operations
from the initial state. -/
theorem runWorkflowOps_inv (fs : FS) (ops : List WorkflowOp) :
    (runWorkflowOps fs ops).1.current_edit_path = none ∨
      (runWorkflowOps fs ops).1.state = SinglelineFileState.Edit := by
  unfold runWorkflowOps
  have hgen : ∀ (start : WorkflowStateInner × FS),
      (start.1.current_edit_path = none ∨
        start.1.state = SinglelineFileState.Edit) →
      ((ops.foldl applyWorkflowOp start).1.current_edit_path = none ∨
        (ops.foldl applyWorkflowOp start).1.state =
          SinglelineFileState.Edit) := by
    induction ops with
    | nil => intro start h; exact h
    | cons op rest ih =>
      intro start h
      exact ih (applyWorkflowOp start op)
        (applyWorkflowOp_preserves_inv start op h)
  exact hgen (initialWorkflowInner, fs) (Or.inl rfl)

/-- The one-file starting directory of the C3 interleaving scenario. -/
def c3_fs0 : FS := [(["d", "same.txt"], "body")]

/-- The initial machine over that directory. -/
def c3_m0 : WMachine :=
  { inner := initialWorkflowInner, fs := c3_fs0, pending_creates := [],
    pending_renames := [], pending_autosaves := [] }

/-- Step 1: the user opens `d/same.txt` (forced transition to `Edit`). -/
def c3_m1 : WMachine :=
  { c3_m0 with inner := set_edit_from_open_file c3_m0.inner ["d", "same.txt"] }

/-- Step 2: a rename to the file's current name is dispatched; the lock is
released while the worker executes it. -/
def c3_m2 : WMachine := applyRenameStart c3_m1 "same" fixedNow

/-- Step 3: while the rename is in flight, the "new note" transition runs
and moves the machine to `Neutral`, clearing the edit path. -/
def c3_m3 : WMachine :=
  { c3_m2 with inner := (transition_edit_to_neutral c3_m2.inner).1 }

/-- Step 4: the rename completes with `Renamed`; its completion phase sets
`current_edit_path` without re-checking or restoring `state`. -/
def c3_m4 : WMachine := applyRenameFinish c3_m3

/-- C3 counterexample: the invariant quantified over interleavings (as the
claim states it) is false — after open, rename-dispatch,
`transition_edit_to_neutral`, rename-completion, the reachable machine
`c3_m4` is in state `Neutral` with `current_edit_path = Some "d/same.txt"`:
the rename's completion phase writes the path back while another operation
has already left `Edit`. -/
theorem C3_counterexample :
    ¬ (∀ m : WMachine, WorkflowReach c3_fs0 m →
        (m.inner.current_edit_path.isSome = true →
          m.inner.state = SinglelineFileState.Edit) ∧
        (m.inner.state = SinglelineFileState.Neutral ∨
            m.inner.state = SinglelineFileState.New →
          m.inner.current_edit_path = none)) := by
  intro h
  have h1 : WorkflowReach c3_fs0 c3_m1 :=
    WorkflowReach.openFile ["d", "same.txt"] WorkflowReach.init
  have h2 : WorkflowReach c3_fs0 c3_m2 :=
    WorkflowReach.renameStart "same" fixedNow h1
  have h3 : WorkflowReach c3_fs0 c3_m3 := WorkflowReach.editToNeutral h2
  have h4 : WorkflowReach c3_fs0 c3_m4 := WorkflowReach.renameFinish h3
  have hstate : c3_m4.inner.state = SinglelineFileState.Neutral := by decide
  have hpath : c3_m4.inner.current_edit_path = some ["d", "same.txt"] := by
    decide
  have hnone := (h c3_m4 h4).2 (Or.inl hstate)
  rw [hpath] at hnone
  exact absurd hnone (by decide)

/-- C3 amended: the invariant holds in every state reachable by running the
six operations to completion without interleaving — `current_edit_path` is
`Some` only in `Edit`, and `Neutral`/`New` imply `None`.  (Under the
interleaving the claim also quantifies over, a rename completion performed
after another operation has left `Edit` re-establishes `Some` outside
`Edit`; see the counterexample.) -/
theorem C3_amended (fs : FS) (ops : List WorkflowOp) :
    ((runWorkflowOps fs ops).1.current_edit_path.isSome = true →
      (runWorkflowOps fs ops).1.state = SinglelineFileState.Edit) ∧
    ((runWorkflowOps fs ops).1.state = SinglelineFileState.Neutral ∨
        (runWorkflowOps fs ops).1.state = SinglelineFileState.New →
      (runWorkflowOps fs ops).1.current_edit_path = none) := by
  have hinv := runWorkflowOps_inv fs ops
  constructor
  · intro hsome
    rcases hinv with h | h
    · rw [h] at hsome
      cases hsome
    · exact h
  · intro hne
    rcases hinv with h | h
    · exact h
    · rcases hne with he | he <;> rw [he] at h <;> cases h

/-- Witness for C3 at a concrete sequential trace: open a file, then the
"new note" transition; the machine ends `Neutral` with no edit path. -/
theorem C3_witness :
    (runWorkflowOps []
      [WorkflowOp.openFile ["d", "same.txt"],
        WorkflowOp.editToNeutral]).1.current_edit_path = none :=
  (C3_amended []
    [WorkflowOp.openFile ["d", "same.txt"],
      WorkflowOp.editToNeutral]).2 (Or.inl (by decide))

/-! ## C5: the autosave coordinator -/

/-- A burst of `mark_user_edit` calls within one idle window, applied in
order. -/
def mark_sequence (s : EditorAutoSaveState) :
    List (EditorAutoSavePayload × Nat) → EditorAutoSaveState
  | [] => s
  | pn :: rest => mark_sequence (mark_user_edit s pn.1 pn.2) rest

theorem mark_sequence_pending (l : List (EditorAutoSavePayload × Nat)) :
    ∀ (s : EditorAutoSaveState) (pn : EditorAutoSavePayload × Nat),
      (mark_sequence s (pn :: l)).pending_payload =
        some (l.getLastD pn).1 := by
  induction l with
  | nil => intro s pn; rfl
  | cons q rest ih =>
    intro s pn
    show (mark_sequence (mark_user_edit s pn.1 pn.2)
      (q :: rest)).pending_payload = _
    rw [ih, List.getLastD_cons]

/-- C5: (1) `mark_user_edit` pins the supplied now-instant exactly when no
timer is armed (an armed timer's pinned time is untouched) and always
overwrites the pending payload; (2) hence after any burst of marks only the
last payload remains pending; (3) `pop_due_payload` returns the pending
payload and disarms the timer exactly when `now - pinnedTime ≥
idleDuration`, and otherwise returns nothing and leaves the timer armed with
the payload still pending; (4) `on_edit_path_changed None` disarms the timer
and drops the pending payload, and a subsequent pop — however late —
returns nothing. -/
theorem C5_autosave_coordinator_spec :
    (∀ (s : EditorAutoSaveState) (payload : EditorAutoSavePayload)
        (now : Nat),
      (s.pinned_time = none →
        (mark_user_edit s payload now).pinned_time = some now) ∧
      (s.pinned_time ≠ none →
        (mark_user_edit s payload now).pinned_time = s.pinned_time) ∧
      (mark_user_edit s payload now).pending_payload = some payload) ∧
    (∀ (l : List (EditorAutoSavePayload × Nat)) (s : EditorAutoSaveState)
        (pn : EditorAutoSavePayload × Nat),
      (mark_sequence s (pn :: l)).pending_payload =
        some (l.getLastD pn).1) ∧
    (∀ (s : EditorAutoSaveState) (now idle pt : Nat)
        (pl : EditorAutoSavePayload),
      s.pinned_time = some pt → s.pending_payload = some pl →
      (idle ≤ now - pt →
        (pop_due_payload s now idle).2 = some pl ∧
        (pop_due_payload s now idle).1.pinned_time = none ∧
        (pop_due_payload s now idle).1.pending_payload = none) ∧
      (now - pt < idle →
        (pop_due_payload s now idle).2 = none ∧
        (pop_due_payload s now idle).1.pinned_time = some pt ∧
        (pop_due_payload s now idle).1.pending_payload = some pl)) ∧
    (∀ (s : EditorAutoSaveState) (now idle : Nat),
      (on_edit_path_changed s none).pinned_time = none ∧
      (on_edit_path_changed s none).pending_payload = none ∧
      pop_due_payload (on_edit_path_changed s none) now idle =
        (on_edit_path_changed s none, none)) := by
  refine ⟨?_, ?_, ?_, ?_⟩
  · intro s payload now
    refine ⟨?_, ?_, rfl⟩
    · intro hp
      simp [mark_user_edit, hp]
    · intro hp
      simp [mark_user_edit, hp]
  · exact fun l s pn => mark_sequence_pending l s pn
  · intro s now idle pt pl hpt hpl
    constructor
    · intro hdue
      have hlt : ¬ (now - pt < idle) := by omega
      refine ⟨?_, ?_, ?_⟩ <;>
        by_cases htr : s.last_delta_trace_secs =
            some ((now - pt) / 1000) <;>
        simp [pop_due_payload, hpt, hpl, htr, hlt]
    · intro hlt
      refine ⟨?_, ?_, ?_⟩ <;>
        by_cases htr : s.last_delta_trace_secs =
            some ((now - pt) / 1000) <;>
        simp [pop_due_payload, hpt, hpl, htr, hlt]
  · exact fun s now idle => ⟨rfl, rfl, rfl⟩

/-- The payload used by the C5 witness. -/
def c5_payload : EditorAutoSavePayload :=
  { current_path := ["d", "x.txt"], editor_text := "text" }

/-- Witness for C5 at concrete states: marking from idle pins the instant
and stores the payload; a pop at exactly the idle threshold fires with the
payload; an early pop returns nothing; after clearing the edit target a
late pop still returns nothing. -/
theorem C5_witness :
    (mark_user_edit initialAutoSaveState c5_payload 100).pinned_time =
      some 100 ∧
    (mark_user_edit initialAutoSaveState c5_payload 100).pending_payload =
      some c5_payload ∧
    (pop_due_payload
      { pinned_time := some 0, pending_payload := some c5_payload,
        last_delta_trace_secs := none } 6000 6000).2 = some c5_payload ∧
    (pop_due_payload
      { pinned_time := some 0, pending_payload := some c5_payload,
        last_delta_trace_secs := none } 500 6000).2 = none ∧
    pop_due_payload
      (on_edit_path_changed
        { pinned_time := some 0, pending_payload := some c5_payload,
          last_delta_trace_secs := none } none) 999999 6000 =
      (on_edit_path_changed
        { pinned_time := some 0, pending_payload := some c5_payload,
          last_delta_trace_secs := none } none, none) :=
  ⟨(C5_autosave_coordinator_spec.1 initialAutoSaveState c5_payload 100).1
      rfl,
    (C5_autosave_coordinator_spec.1 initialAutoSaveState c5_payload 100).2.2,
    ((C5_autosave_coordinator_spec.2.2.1
      { pinned_time := some 0, pending_payload := some c5_payload,
        last_delta_trace_secs := none } 6000 6000 0 c5_payload rfl rfl).1
      (by decide)).1,
    ((C5_autosave_coordinator_spec.2.2.1
      { pinned_time := some 0, pending_payload := some c5_payload,
        last_delta_trace_secs := none } 500 6000 0 c5_payload rfl rfl).2
      (by decide)).1,
    (C5_autosave_coordinator_spec.2.2.2
      { pinned_time := some 0, pending_payload := some c5_payload,
        last_delta_trace_secs := none } 999999 6000).2.2⟩

/-! ## C10: the implicit pinned-iff-pending invariant -/

/-- C10: in every autosave-coordinator state reachable from the initial
state by any sequence of `mark_user_edit`, `on_edit_path_changed` and
`pop_due_payload`, the pinned time is `Some` if and only if the pending
payload is `Some` — both directions, strengthening the spec's stated
forward direction: an armed timer always has a payload to deliver. -/
theorem C10_autosave_pinned_iff_pending (s : EditorAutoSaveState)
    (hreach : AutosaveReach s) :
    (s.pinned_time.isSome = true ↔ s.pending_payload.isSome = true) := by
  induction hreach with
  | init => simp [initialAutoSaveState]
  | @mark s' payload now hr ih =>
    cases hps : s'.pinned_time with
    | none => simp [mark_user_edit, hps]
    | some v => simp [mark_user_edit, hps]
  | @pathChanged s' path hr ih =>
    cases path with
    | none => simp [on_edit_path_changed]
    | some p =>
      cases hpp : s'.pending_payload with
      | none => simpa [on_edit_path_changed, hpp] using ih
      | some payload =>
        have hps : s'.pinned_time.isSome = true :=
          ih.mpr (by rw [hpp]; rfl)
        simp [on_edit_path_changed, hpp, hps]
  | @pop s' now idle hr ih =>
    cases hps : s'.pinned_time with
    | none => simpa [pop_due_payload, hps] using ih
    | some pt =>
      have hpend : s'.pending_payload.isSome = true :=
        ih.mp (by rw [hps]; rfl)
      by_cases hd : now - pt < idle
      · by_cases htr : s'.last_delta_trace_secs =
            some ((now - pt) / 1000) <;>
          simp [pop_due_payload, hps, hd, htr, hpend]
      · by_cases htr : s'.last_delta_trace_secs =
            some ((now - pt) / 1000) <;>
          simp [pop_due_payload, hps, hd, htr]

/-- Witness for C10 at the reachable initial state. -/
theorem C10_witness :
    (initialAutoSaveState.pinned_time.isSome = true ↔
      initialAutoSaveState.pending_payload.isSome = true) :=
  C10_autosave_pinned_iff_pending initialAutoSaveState AutosaveReach.init
